import Mathlib

/-!
Shallow embedding of the BusTub buffer pool core:
`src/buffer/lru_replacer.cpp` and `src/buffer/buffer_pool_manager_instance.cpp`.

Page ids (`page_id_t`, an `int32_t` in the source) are modelled as `Int` with
`INVALID_PAGE_ID = -1`; frame ids are `Nat` indices into the frame array.
A page's byte buffer is abstracted to a single `Nat` value (`0` standing for
the all-zero buffer produced by `Page::ResetMemory`).  The `std::unordered_map`
page table is an association list with `count` / `at` / `erase` / `insert`
translated to list operations with the same key semantics.  The disk manager
is external to the repository; it is modelled as a key-value store whose
`ReadPage` may fail on a designated set of page ids (the source treats
`ReadPage` as returning `void` and never inspects any outcome, which the
embedding renders by keeping the frame buffer unchanged on a failed read and
continuing).  Locks are erased: each public operation is one atomic step, as
the per-instance latch serialises them in the source.
-/

namespace BusTub

def INVALID_PAGE_ID : Int := -1

/-- One frame of the buffer pool (class `Page`): cached page id, abstracted
data buffer, pin count and dirty flag. -/
structure Page where
  page_id : Int
  data : Nat
  pin_count : Nat
  is_dirty : Bool
deriving Repr, DecidableEq

/-- A default-constructed `Page`: invalid id, zeroed buffer, no pins, clean. -/
instance : Inhabited Page :=
  ⟨{ page_id := INVALID_PAGE_ID, data := 0, pin_count := 0, is_dirty := false }⟩

/-- `LRUReplacer`: capacity `size` (the constructor's `num_pages`) and the
`std::list` `list_t_`, front = least recently unpinned. -/
structure LRUReplacer where
  size : Nat
  list_t : List Nat
deriving Repr, DecidableEq

/-- `LRUReplacer::Size`. -/
def LRUReplacer.S (r : LRUReplacer) : Nat := r.list_t.length

/-- `LRUReplacer::Victim`: if the list is empty report failure, otherwise
remove and return the front (least recent) element. -/
def LRUReplacer.Victim (r : LRUReplacer) : Option Nat × LRUReplacer :=
  match r.list_t with
  | [] => (none, r)
  | f :: rest => (some f, { r with list_t := rest })

/-- `LRUReplacer::Pin`: erase the first occurrence of `frame_id` from the
list if present (`std::find` then `erase`), otherwise do nothing. -/
def LRUReplacer.Pin (r : LRUReplacer) (frame_id : Nat) : LRUReplacer :=
  { r with list_t := r.list_t.erase frame_id }

/-- `LRUReplacer::Unpin`: no-op if `frame_id` is already present or the list
is at capacity, otherwise push it at the back (most recent end). -/
def LRUReplacer.Unpin (r : LRUReplacer) (frame_id : Nat) : LRUReplacer :=
  if r.list_t.count frame_id ≠ 0 then r
  else if r.size ≤ r.list_t.length then r
  else { r with list_t := r.list_t ++ [frame_id] }

/-- The external disk manager: a persistent store from page id to page
content, a set of page ids on which `ReadPage` fails, and an append-only log
of every `WritePage` call (page id and bytes written). -/
structure Disk where
  store : List (Int × Nat)
  failing : List Int
  log : List (Int × Nat)
deriving Repr, DecidableEq

/-- `DiskManager::WritePage`: persist `v` under page id `k`. -/
def Disk.WritePage (d : Disk) (k : Int) (v : Nat) : Disk :=
  { d with store := (k, v) :: d.store.filter (fun e => e.1 ≠ k),
           log := d.log ++ [(k, v)] }

/-- `DiskManager::ReadPage`: the persisted content of `k` (a missing page
reads as zeros), or `none` when the read fails. -/
def Disk.ReadPage (d : Disk) (k : Int) : Option Nat :=
  if k ∈ d.failing then none else some (((d.store.lookup k).getD 0))

/-- `std::unordered_map::count` on the page table. -/
def mapCount (pt : List (Int × Nat)) (k : Int) : Nat :=
  (pt.filter (fun e => e.1 = k)).length

/-- `std::unordered_map::at` on the page table (only reached after a
successful `count` check in the source). -/
def mapAt (pt : List (Int × Nat)) (k : Int) : Nat :=
  ((pt.find? (fun e => e.1 = k)).map (fun e => e.2)).getD 0

/-- `std::unordered_map::erase(key)`: drop the entry with key `k`. -/
def mapErase (pt : List (Int × Nat)) (k : Int) : List (Int × Nat) :=
  pt.filter (fun e => e.1 ≠ k)

/-- `std::unordered_map::insert`: add `(k, v)` only if `k` is absent. -/
def mapInsert (pt : List (Int × Nat)) (k : Int) (v : Nat) : List (Int × Nat) :=
  if mapCount pt k ≠ 0 then pt else (k, v) :: pt

/-- `BufferPoolManagerInstance` state: the frame array `pages_`, the page
table, the free list, the replacer and the allocator cursor plus the
constructor parameters. -/
structure BPM where
  pool_size : Nat
  num_instances : Nat
  instance_index : Nat
  next_page_id : Int
  pages : List Page
  page_table : List (Int × Nat)
  free_list : List Nat
  replacer : LRUReplacer
deriving Repr, DecidableEq

/-- The constructor: `next_page_id_ = instance_index`, every frame default
constructed and placed in the free list, an empty replacer of capacity
`pool_size`. -/
def mkBPM (pool_size num_instances instance_index : Nat) : BPM :=
  { pool_size := pool_size
    num_instances := num_instances
    instance_index := instance_index
    next_page_id := instance_index
    pages := List.replicate pool_size default
    page_table := []
    free_list := List.range pool_size
    replacer := { size := pool_size, list_t := [] } }

/-- `BufferPoolManagerInstance::AllocatePage`: return the cursor and advance
it by `num_instances_`. -/
def AllocatePage (s : BPM) : Int × BPM :=
  (s.next_page_id, { s with next_page_id := s.next_page_id + (s.num_instances : Int) })

/-- `BufferPoolManagerInstance::FlushPgImp`: false if `page_id` is not in the
page table; otherwise, if the frame is dirty, write its bytes to disk and
clear the dirty flag. -/
def FlushPgImp (s : BPM) (d : Disk) (page_id : Int) : Bool × BPM × Disk :=
  if mapCount s.page_table page_id = 0 then (false, s, d)
  else
    let frame_id := mapAt s.page_table page_id
    let page := s.pages.getD frame_id default
    if page.is_dirty = false then (true, s, d)
    else
      (true,
       { s with pages := s.pages.set frame_id { page with is_dirty := false } },
       d.WritePage page_id page.data)

/-- The loop body of `FlushAllPgsImp` for one page-table entry `v =
(page_id, frame_id)`: skip a clean frame, otherwise write it back and clear
its dirty flag. -/
def flushStep (acc : BPM × Disk) (v : Int × Nat) : BPM × Disk :=
  let page := acc.1.pages.getD v.2 default
  if page.is_dirty = false then acc
  else
    ({ acc.1 with pages := acc.1.pages.set v.2 { page with is_dirty := false } },
     acc.2.WritePage v.1 page.data)

/-- `BufferPoolManagerInstance::FlushAllPgsImp`: iterate the page table,
writing back and cleaning every dirty mapped frame. -/
def FlushAllPgsImp (s : BPM) (d : Disk) : BPM × Disk :=
  s.page_table.foldl flushStep (s, d)

/-- The victim-acquisition step shared by `NewPgImp` and `FetchPgImp`
(lines 95-108 and 145-158 of the source): pop the front of the free list if
non-empty; otherwise take the replacer's victim (unchecked in the source),
flush it through `FlushPgImp` if dirty, and erase its old page-table entry. -/
def obtainFrame (s : BPM) (d : Disk) : Nat × BPM × Disk :=
  match s.free_list with
  | f :: rest => (f, { s with free_list := rest }, d)
  | [] =>
    let v := s.replacer.Victim
    let frame_id := v.1.getD 0
    let s1 := { s with replacer := v.2 }
    let page := s1.pages.getD frame_id default
    let sd :=
      if page.is_dirty then
        let r := FlushPgImp s1 d page.page_id
        (r.2.1, r.2.2)
      else (s1, d)
    (frame_id, { sd.1 with page_table := mapErase sd.1.page_table page.page_id }, sd.2)

/-- `BufferPoolManagerInstance::NewPgImp`: nothing if every frame is pinned;
otherwise take a frame (free list first), allocate a fresh page id, reset the
frame's metadata and buffer, register it in the page table and pin it.
Returns the new page id and the frame id. -/
def NewPgImp (s : BPM) (d : Disk) : Option (Int × Nat) × BPM × Disk :=
  if s.free_list = [] ∧ s.replacer.S = 0 then (none, s, d)
  else
    let o := obtainFrame s d
    let frame_id := o.1
    let s1 := o.2.1
    let d1 := o.2.2
    let a := AllocatePage s1
    let page_id := a.1
    let s2 := a.2
    let page : Page := { page_id := page_id, data := 0, pin_count := 1, is_dirty := false }
    let s3 := { s2 with pages := s2.pages.set frame_id page }
    let s4 := { s3 with page_table := mapInsert s3.page_table page_id frame_id }
    let s5 := { s4 with replacer := s4.replacer.Pin frame_id }
    (some (page_id, frame_id), s5, d1)

/-- `BufferPoolManagerInstance::FetchPgImp`: a hit pins the mapped frame and
returns it; a miss takes a frame (free list first, flushing a dirty victim),
reads the page from disk (the read's outcome is not inspected: on failure the
buffer keeps its previous content), registers and pins it.  Returns the frame
id. -/
def FetchPgImp (s : BPM) (d : Disk) (page_id : Int) : Option Nat × BPM × Disk :=
  if mapCount s.page_table page_id = 1 then
    let frame_id := mapAt s.page_table page_id
    let page := s.pages.getD frame_id default
    let s1 := { s with pages := s.pages.set frame_id { page with pin_count := page.pin_count + 1 } }
    let s2 := { s1 with replacer := s1.replacer.Pin frame_id }
    (some frame_id, s2, d)
  else if s.free_list = [] ∧ s.replacer.S = 0 then (none, s, d)
  else
    let o := obtainFrame s d
    let frame_id := o.1
    let s1 := o.2.1
    let d1 := o.2.2
    let old := s1.pages.getD frame_id default
    let page : Page :=
      { page_id := page_id, data := (d1.ReadPage page_id).getD old.data,
        pin_count := 1, is_dirty := false }
    let s2 := { s1 with pages := s1.pages.set frame_id page }
    let s3 := { s2 with page_table := mapInsert s2.page_table page_id frame_id }
    let s4 := { s3 with replacer := s3.replacer.Pin frame_id }
    (some frame_id, s4, d1)

/-- `BufferPoolManagerInstance::DeletePgImp`: true if `page_id` is unmapped;
false if its frame is pinned; otherwise reset the frame, erase from the page
table the key held by the frame AT THAT POINT (the source sets
`page->page_id_ = INVALID_PAGE_ID` first and then calls
`page_table_.erase(page->page_id_)`), append the frame to the free list and
remove it from the replacer. -/
def DeletePgImp (s : BPM) (page_id : Int) : Bool × BPM :=
  if mapCount s.page_table page_id = 0 then (true, s)
  else
    let frame_id := mapAt s.page_table page_id
    let page := s.pages.getD frame_id default
    if page.pin_count ≠ 0 then (false, s)
    else
      let page1 : Page :=
        { page_id := INVALID_PAGE_ID, data := 0, is_dirty := false, pin_count := 0 }
      let s1 := { s with pages := s.pages.set frame_id page1 }
      let s2 := { s1 with page_table := mapErase s1.page_table page1.page_id }
      let s3 := { s2 with free_list := s2.free_list ++ [frame_id] }
      let s4 := { s3 with replacer := s3.replacer.Pin frame_id }
      (true, s4)

/-- `BufferPoolManagerInstance::UnpinPgImp`: false if unmapped; true with no
effect if the pin count is already zero; otherwise set the dirty flag when
`is_dirty` is true (never clear it), decrement the pin count, and hand the
frame to the replacer when the count reaches zero. -/
def UnpinPgImp (s : BPM) (page_id : Int) (is_dirty : Bool) : Bool × BPM :=
  if mapCount s.page_table page_id = 0 then (false, s)
  else
    let frame_id := mapAt s.page_table page_id
    let page := s.pages.getD frame_id default
    if page.pin_count = 0 then (true, s)
    else
      let pa := if is_dirty then { page with is_dirty := is_dirty } else page
      let pb := { pa with pin_count := pa.pin_count - 1 }
      let s1 := { s with pages := s.pages.set frame_id pb }
      let s2 :=
        if pb.pin_count = 0 then { s1 with replacer := s1.replacer.Unpin frame_id } else s1
      (true, s2)

/-- The page id minted by the `(k+1)`-st call to `AllocatePage` on state `s`,
together with the state after it. -/
def allocSeq (s : BPM) : Nat → Int × BPM
  | 0 => AllocatePage s
  | k + 1 => AllocatePage (allocSeq s k).2

/-- Does some page-table entry map to frame `f`? -/
def frameInTable (s : BPM) (f : Nat) : Bool :=
  s.page_table.any (fun e => e.2 = f)

/-- The two state invariants of claim C2 as a decidable check: every frame id
below `pool_size` is in exactly one of the free list and the page table's
range, and every page-table entry agrees with its frame's `page_id`. -/
def invariantHolds (s : BPM) : Bool :=
  ((List.range s.pool_size).all
    (fun f => decide (f ∈ s.free_list) != frameInTable s f)) &&
  s.page_table.all (fun e => (s.pages.getD e.2 default).page_id = e.1)

/-- The dirty flag of frame `f` in state `s`. -/
def dirtyF (s : BPM) (f : Nat) : Bool :=
  (s.pages.getD f default).is_dirty

/-- Concrete state used to exercise `DeletePgImp`: a one-frame pool whose
frame 0 holds page 5 with `pin_count = 0` (so the page is deletable),
frame 0 being an unpinned replacer member. -/
def c1S : BPM :=
  { pool_size := 1, num_instances := 1, instance_index := 0, next_page_id := 6,
    pages := [{ page_id := 5, data := 3, pin_count := 0, is_dirty := false }],
    page_table := [(5, 0)], free_list := [],
    replacer := { size := 1, list_t := [0] } }

/-- Concrete state for the `FetchPgImp` read-failure scenario: an empty
one-frame pool with frame 0 on the free list. -/
def c4S : BPM :=
  { pool_size := 1, num_instances := 1, instance_index := 0, next_page_id := 0,
    pages := [default], page_table := [], free_list := [0],
    replacer := { size := 1, list_t := [] } }

/-- A disk on which reading page 7 fails. -/
def c4D : Disk := { store := [], failing := [7], log := [] }

section MapLemmas

theorem mapCount_erase_self (pt : List (Int × Nat)) (k : Int) :
    mapCount (mapErase pt k) k = 0 := by
  induction pt with
  | nil => rfl
  | cons e t ih =>
    unfold mapErase at ih ⊢
    rw [List.filter_cons]
    by_cases h : e.1 = k
    · rw [if_neg (by simp [h])]
      exact ih
    · rw [if_pos (by simp [h])]
      unfold mapCount
      rw [List.filter_cons, if_neg (by simp [h])]
      exact ih

theorem mapCount_insert_of_ne (pt : List (Int × Nat)) (k k' : Int) (v : Nat)
    (h : k ≠ k') : mapCount (mapInsert pt k' v) k = mapCount pt k := by
  unfold mapInsert
  split
  · rfl
  · simp [mapCount, List.filter_cons, h.symm]

theorem mapCount_insert_self (pt : List (Int × Nat)) (k : Int) (v : Nat)
    (h : mapCount pt k = 0) : mapCount (mapInsert pt k v) k = 1 := by
  unfold mapInsert
  rw [if_neg (by simp [h])]
  unfold mapCount at h ⊢
  rw [List.filter_cons, if_pos (by simp)]
  simp [h]

end MapLemmas

section ListLemmas

theorem getD_set_self (l : List Page) (i : Nat) (a : Page) (h : i < l.length) :
    (l.set i a).getD i default = a := by
  simp [List.getD_eq_getElem?_getD, List.getElem?_set_self', h,
    List.getElem?_eq_getElem, (List.length_set l i a) ▸ h]

theorem getD_set_ne (l : List Page) (i j : Nat) (a : Page) (h : i ≠ j) :
    (l.set i a).getD j default = l.getD j default := by
  simp [List.getD_eq_getElem?_getD, List.getElem?_set_ne h]

end ListLemmas

/-- An empty disk. -/
def emptyDisk : Disk := { store := [], failing := [], log := [] }

/-- A one-frame pool whose only frame is pinned (page 0, `pin_count = 1`):
both the free list and the replacer are empty. -/
def wFullS : BPM :=
  { pool_size := 1, num_instances := 1, instance_index := 0, next_page_id := 1,
    pages := [{ page_id := 0, data := 0, pin_count := 1, is_dirty := false }],
    page_table := [(0, 0)], free_list := [],
    replacer := { size := 1, list_t := [] } }

/-- A one-frame pool whose only frame holds page 0 unpinned: the free list is
empty and the replacer holds frame 0. -/
def wVicS : BPM :=
  { pool_size := 1, num_instances := 1, instance_index := 0, next_page_id := 1,
    pages := [{ page_id := 0, data := 0, pin_count := 0, is_dirty := false }],
    page_table := [(0, 0)], free_list := [],
    replacer := { size := 1, list_t := [0] } }

/-- C1: refuted on the code.  On a state where page 5 is resident in frame 0
with `pin_count = 0`, `DeletePgImp 5` returns true, resets the frame
(`page_id = INVALID`, data zeroed, clean, `pin_count = 0`), appends frame 0 to
the free list and removes it from the replacer — but the mapping `5 ↦ 0` is
still in the page table: the source sets `page->page_id_ = INVALID_PAGE_ID`
before calling `page_table_.erase(page->page_id_)`, so it erases the key
`INVALID_PAGE_ID` instead of the deleted page's id. -/
theorem C1_deletePage_keeps_stale_mapping :
    (DeletePgImp c1S 5).1 = true ∧
    (DeletePgImp c1S 5).2.pages.getD 0 default =
      { page_id := INVALID_PAGE_ID, data := 0, pin_count := 0, is_dirty := false } ∧
    (DeletePgImp c1S 5).2.free_list = [0] ∧
    (DeletePgImp c1S 5).2.replacer.list_t = [] ∧
    mapCount (DeletePgImp c1S 5).2.page_table 5 = 1 := by decide

/-- C2: refuted on the code.  The state `c1S` (page 5 resident in frame 0,
unpinned) satisfies the claimed invariant; `DeletePgImp 5` succeeds yet its
result state violates it: frame 0 is now both on the free list and in the
page table's range, and the surviving entry `5 ↦ 0` disagrees with the
frame's reset `page_id = INVALID`. -/
theorem C2_deletePage_breaks_invariant :
    invariantHolds c1S = true ∧
    (DeletePgImp c1S 5).1 = true ∧
    invariantHolds (DeletePgImp c1S 5).2 = false := by decide

/-- C9: when the free list is empty and the replacer is empty, `NewPgImp`
returns `none` and leaves the instance state and the disk completely
unchanged; in particular the allocator cursor `next_page_id` does not
advance, so the failed call consumes no page id. -/
theorem C9_failed_newPage_changes_nothing (s : BPM) (d : Disk)
    (h1 : s.free_list = []) (h2 : s.replacer.S = 0) :
    NewPgImp s d = (none, s, d) := by
  unfold NewPgImp
  rw [if_pos ⟨h1, h2⟩]

/-- C9 witness: the theorem applied to the fully pinned one-frame pool. -/
theorem C9_failed_newPage_changes_nothing_witness :
    NewPgImp wFullS emptyDisk = (none, wFullS, emptyDisk) :=
  C9_failed_newPage_changes_nothing wFullS emptyDisk rfl rfl

/-- C10: whenever the free list is empty and the replacer is non-empty — the
exact situation in which `NewPgImp` / `FetchPgImp` reach the unchecked
`replacer_->Victim` call — `Victim` succeeds (returns `some`), so the
failure branch that would leave the output frame id undefined is
unreachable, and both operations produce a frame. -/
theorem C10_victim_guard (s : BPM) (d : Disk) (p : Int)
    (h1 : s.free_list = []) (h2 : s.replacer.S ≠ 0) :
    (s.replacer.Victim).1.isSome = true ∧
    (NewPgImp s d).1.isSome = true ∧
    (mapCount s.page_table p ≠ 1 → (FetchPgImp s d p).1.isSome = true) := by
  obtain ⟨v, rest, hv⟩ : ∃ v rest, s.replacer.list_t = v :: rest := by
    cases hl : s.replacer.list_t with
    | nil => exact absurd (by simp [LRUReplacer.S, hl]) h2
    | cons a t => exact ⟨a, t, rfl⟩
  refine ⟨?_, ?_, ?_⟩
  · unfold LRUReplacer.Victim
    rw [hv]
    rfl
  · unfold NewPgImp
    rw [if_neg (by simp [h2])]
    rfl
  · intro hp
    unfold FetchPgImp
    rw [if_neg hp, if_neg (by simp [h2])]
    rfl

/-- C10 witness: the theorem applied to the one-frame pool with an unpinned
resident page, fetching the absent page 1. -/
theorem C10_victim_guard_witness :
    (wVicS.replacer.Victim).1.isSome = true ∧
    (FetchPgImp wVicS emptyDisk 1).1.isSome = true :=
  ⟨(C10_victim_guard wVicS emptyDisk 1 rfl (by decide)).1,
   (C10_victim_guard wVicS emptyDisk 1 rfl (by decide)).2.2 (by decide)⟩

/-- C6: the replacer is strict LRU.  `Victim` returns `none` exactly on the
empty set and otherwise removes and returns the front (least-recent) member;
`Unpin` appends at the back (most-recent end) only when the frame is absent
and the set is below capacity, and is a no-op otherwise; `Pin` erases a
present member — leaving the remaining members in their relative order (a
sublist) — and is a no-op on an absent member. -/
theorem C6_lru_replacer (r : LRUReplacer) (f v : Nat) (rest : List Nat) :
    (r.list_t = [] → r.Victim = (none, r)) ∧
    (r.list_t = v :: rest → r.Victim = (some v, { r with list_t := rest })) ∧
    (f ∉ r.list_t → r.list_t.length < r.size →
      r.Unpin f = { r with list_t := r.list_t ++ [f] }) ∧
    (f ∈ r.list_t → r.Unpin f = r) ∧
    (r.size ≤ r.list_t.length → r.Unpin f = r) ∧
    ((r.Pin f).list_t = r.list_t.erase f) ∧
    (f ∉ r.list_t → r.Pin f = r) ∧
    (r.list_t.Nodup → f ∉ (r.Pin f).list_t) ∧
    ((r.Pin f).list_t.Sublist r.list_t) := by
  refine ⟨?_, ?_, ?_, ?_, ?_, rfl, ?_, ?_, ?_⟩
  · intro h
    unfold LRUReplacer.Victim
    rw [h]
  · intro h
    unfold LRUReplacer.Victim
    rw [h]
  · intro h1 h2
    unfold LRUReplacer.Unpin
    rw [if_neg (by simp [List.count_eq_zero.mpr h1]), if_neg (by omega)]
  · intro h
    unfold LRUReplacer.Unpin
    rw [if_pos (by simp [List.count_eq_zero, h])]
  · intro h
    unfold LRUReplacer.Unpin
    by_cases hc : r.list_t.count f ≠ 0
    · rw [if_pos hc]
    · rw [if_neg hc, if_pos h]
  · intro h
    show { r with list_t := r.list_t.erase f } = r
    rw [List.erase_of_not_mem h]
  · intro hd
    show f ∉ r.list_t.erase f
    simp [List.Nodup.mem_erase_iff hd]
  · exact List.erase_sublist f r.list_t

/-- C6 witness: the theorem's branches exercised on concrete replacers. -/
theorem C6_lru_replacer_witness :
    LRUReplacer.Victim ⟨3, [4, 5]⟩ = (some 4, ⟨3, [5]⟩) ∧
    LRUReplacer.Unpin ⟨3, [4, 5]⟩ 6 = ⟨3, [4, 5, 6]⟩ ∧
    LRUReplacer.Unpin ⟨3, [4, 5]⟩ 5 = ⟨3, [4, 5]⟩ ∧
    LRUReplacer.Unpin ⟨2, [4, 5]⟩ 6 = ⟨2, [4, 5]⟩ ∧
    (LRUReplacer.Pin ⟨3, [4, 5]⟩ 4).list_t = [4, 5].erase 4 ∧
    4 ∉ (LRUReplacer.Pin ⟨3, [4, 5]⟩ 4).list_t :=
  ⟨(C6_lru_replacer ⟨3, [4, 5]⟩ 0 4 [5]).2.1 rfl,
   (C6_lru_replacer ⟨3, [4, 5]⟩ 6 0 []).2.2.1 (by decide) (by decide),
   (C6_lru_replacer ⟨3, [4, 5]⟩ 5 0 []).2.2.2.1 (by decide),
   (C6_lru_replacer ⟨2, [4, 5]⟩ 6 0 []).2.2.2.2.1 (by decide),
   (C6_lru_replacer ⟨3, [4, 5]⟩ 4 0 []).2.2.2.2.2.1,
   (C6_lru_replacer ⟨3, [4, 5]⟩ 4 0 []).2.2.2.2.2.2.2.1 (by decide)⟩

theorem allocSeq_fst (ps n i : Nat) (k : Nat) :
    (allocSeq (mkBPM ps n i) k).1 = (i : Int) + k * n ∧
    (allocSeq (mkBPM ps n i) k).2.next_page_id = (i : Int) + (k + 1) * n ∧
    (allocSeq (mkBPM ps n i) k).2.num_instances = n := by
  induction k with
  | zero => simp [allocSeq, AllocatePage, mkBPM]
  | succ k ih =>
    obtain ⟨-, h2, h3⟩ := ih
    refine ⟨?_, ?_, ?_⟩
    · simp only [allocSeq, AllocatePage]
      rw [h2]
      push_cast
      ring
    · simp only [allocSeq, AllocatePage]
      rw [h2, h3]
      push_cast
      ring
    · simp only [allocSeq, AllocatePage]
      exact h3

/-- C8: page-id partitioning of the allocator.  Starting from a freshly
constructed instance with index `i` out of `n` instances (`i < n`), the first
`AllocatePage` returns `i`, every allocated id is `≡ i (mod n)`, and each
subsequent id exceeds the previous one by exactly `n`. -/
theorem C8_allocate_partition (ps n i : Nat) (hn : 0 < n) (hi : i < n) (k : Nat) :
    (allocSeq (mkBPM ps n i) 0).1 = (i : Int) ∧
    (allocSeq (mkBPM ps n i) k).1 % (n : Int) = (i : Int) ∧
    (allocSeq (mkBPM ps n i) (k + 1)).1 = (allocSeq (mkBPM ps n i) k).1 + (n : Int) := by
  obtain ⟨h1, -, -⟩ := allocSeq_fst ps n i k
  obtain ⟨g1, -, -⟩ := allocSeq_fst ps n i (k + 1)
  refine ⟨by simpa using (allocSeq_fst ps n i 0).1, ?_, ?_⟩
  · rw [h1, Int.add_mul_emod_self]
    exact Int.emod_eq_of_lt (by positivity) (by exact_mod_cast hi)
  · rw [h1, g1]
    push_cast
    ring

/-- C8 witness: instance 1 of 3 mints 1, 4, 7, …. -/
theorem C8_allocate_partition_witness :
    (allocSeq (mkBPM 1 3 1) 0).1 = (1 : Int) ∧
    (allocSeq (mkBPM 1 3 1) 2).1 % (3 : Int) = (1 : Int) ∧
    (allocSeq (mkBPM 1 3 1) 3).1 = (allocSeq (mkBPM 1 3 1) 2).1 + (3 : Int) :=
  C8_allocate_partition 1 3 1 (by decide) (by decide) 2

section ObtainFrame

theorem obtainFrame_free (s : BPM) (d : Disk) (f : Nat) (rest : List Nat)
    (h : s.free_list = f :: rest) :
    obtainFrame s d = (f, { s with free_list := rest }, d) := by
  unfold obtainFrame
  rw [h]

theorem NewPgImp_free (s : BPM) (d : Disk) (f : Nat) (rest : List Nat)
    (h : s.free_list = f :: rest) :
    NewPgImp s d =
      (some (s.next_page_id, f),
       { s with free_list := rest,
                next_page_id := s.next_page_id + (s.num_instances : Int),
                pages := s.pages.set f
                  { page_id := s.next_page_id, data := 0, pin_count := 1, is_dirty := false },
                page_table := mapInsert s.page_table s.next_page_id f,
                replacer := s.replacer.Pin f },
       d) := by
  unfold NewPgImp
  rw [if_neg (by simp [h])]
  rw [obtainFrame_free s d f rest h]
  rfl

theorem FetchPgImp_miss_free (s : BPM) (d : Disk) (p : Int) (f : Nat) (rest : List Nat)
    (hmiss : mapCount s.page_table p ≠ 1)
    (hfree : s.free_list = f :: rest) :
    FetchPgImp s d p =
      (some f,
       { s with free_list := rest,
                pages := s.pages.set f
                  { page_id := p,
                    data := (d.ReadPage p).getD (s.pages.getD f default).data,
                    pin_count := 1, is_dirty := false },
                page_table := mapInsert s.page_table p f,
                replacer := s.replacer.Pin f },
       d) := by
  unfold FetchPgImp
  rw [if_neg hmiss, if_neg (by simp [hfree])]
  rw [obtainFrame_free s d f rest hfree]

theorem obtainFrame_victim_dirty (s : BPM) (d : Disk) (f : Nat) (rest : List Nat)
    (hfree : s.free_list = [])
    (hrep : s.replacer.list_t = f :: rest)
    (hdirty : (s.pages.getD f default).is_dirty = true)
    (hcount : mapCount s.page_table (s.pages.getD f default).page_id ≠ 0)
    (hat : mapAt s.page_table (s.pages.getD f default).page_id = f) :
    obtainFrame s d =
      (f,
       { s with
           replacer := { s.replacer with list_t := rest },
           pages := s.pages.set f { s.pages.getD f default with is_dirty := false },
           page_table := mapErase s.page_table (s.pages.getD f default).page_id },
       d.WritePage (s.pages.getD f default).page_id (s.pages.getD f default).data) := by
  have hd' : (s.pages[f]?.getD default).is_dirty = true := by
    simpa [List.getD_eq_getElem?_getD] using hdirty
  have hat' : mapAt s.page_table (s.pages[f]?.getD default).page_id = f := by
    simpa [List.getD_eq_getElem?_getD] using hat
  have hc' : ¬ mapCount s.page_table (s.pages[f]?.getD default).page_id = 0 := by
    simpa [List.getD_eq_getElem?_getD] using hcount
  unfold obtainFrame LRUReplacer.Victim FlushPgImp
  rw [hfree, hrep]
  simp [hd', hat', hc', List.getD_eq_getElem?_getD]

theorem Pin_of_not_mem (r : LRUReplacer) (f : Nat) (h : f ∉ r.list_t) :
    r.Pin f = r := by
  show { r with list_t := r.list_t.erase f } = r
  rw [List.erase_of_not_mem h]

theorem NewPgImp_victim_dirty (s : BPM) (d : Disk) (f : Nat) (rest : List Nat)
    (hfree : s.free_list = [])
    (hrep : s.replacer.list_t = f :: rest)
    (hdirty : (s.pages.getD f default).is_dirty = true)
    (hcount : mapCount s.page_table (s.pages.getD f default).page_id ≠ 0)
    (hat : mapAt s.page_table (s.pages.getD f default).page_id = f) :
    NewPgImp s d =
      (some (s.next_page_id, f),
       { s with
           next_page_id := s.next_page_id + (s.num_instances : Int),
           replacer := LRUReplacer.Pin { s.replacer with list_t := rest } f,
           pages := (s.pages.set f { s.pages.getD f default with is_dirty := false }).set f
             { page_id := s.next_page_id, data := 0, pin_count := 1, is_dirty := false },
           page_table := mapInsert
             (mapErase s.page_table (s.pages.getD f default).page_id) s.next_page_id f },
       d.WritePage (s.pages.getD f default).page_id (s.pages.getD f default).data) := by
  unfold NewPgImp
  rw [if_neg (by simp [LRUReplacer.S, hrep])]
  rw [obtainFrame_victim_dirty s d f rest hfree hrep hdirty hcount hat]
  rfl

theorem FetchPgImp_victim_dirty (s : BPM) (d : Disk) (p : Int) (f : Nat) (rest : List Nat)
    (hmiss : mapCount s.page_table p ≠ 1)
    (hfree : s.free_list = [])
    (hrep : s.replacer.list_t = f :: rest)
    (hdirty : (s.pages.getD f default).is_dirty = true)
    (hcount : mapCount s.page_table (s.pages.getD f default).page_id ≠ 0)
    (hat : mapAt s.page_table (s.pages.getD f default).page_id = f) :
    FetchPgImp s d p =
      (some f,
       { s with
           replacer := LRUReplacer.Pin { s.replacer with list_t := rest } f,
           pages := (s.pages.set f { s.pages.getD f default with is_dirty := false }).set f
             { page_id := p,
               data := ((d.WritePage (s.pages.getD f default).page_id
                           (s.pages.getD f default).data).ReadPage p).getD
                 (((s.pages.set f { s.pages.getD f default with is_dirty := false }).getD
                     f default).data),
               pin_count := 1, is_dirty := false },
           page_table := mapInsert
             (mapErase s.page_table (s.pages.getD f default).page_id) p f },
       d.WritePage (s.pages.getD f default).page_id (s.pages.getD f default).data) := by
  unfold FetchPgImp
  rw [if_neg hmiss, if_neg (by simp [LRUReplacer.S, hrep])]
  rw [obtainFrame_victim_dirty s d f rest hfree hrep hdirty hcount hat]

end ObtainFrame

/-- C5: `NewPgImp`, and `FetchPgImp` on a non-resident page id, return an
empty result exactly when both the free list and the replacer are empty; and
whenever the free list is non-empty, the frame used is popped from its front,
the replacer is only `Pin`ned (never victimized), and — as a replacer member
is never on the free list in a consistent state — it is untouched whenever
the popped frame is not a member. -/
theorem C5_exhaustion_and_free_priority (s : BPM) (d : Disk) (p : Int)
    (f : Nat) (rest : List Nat) :
    ((NewPgImp s d).1 = none ↔ (s.free_list = [] ∧ s.replacer.S = 0)) ∧
    (mapCount s.page_table p = 0 →
      ((FetchPgImp s d p).1 = none ↔ (s.free_list = [] ∧ s.replacer.S = 0))) ∧
    (s.free_list = f :: rest →
      (NewPgImp s d).1 = some (s.next_page_id, f) ∧
      (NewPgImp s d).2.1.free_list = rest ∧
      (NewPgImp s d).2.1.replacer = s.replacer.Pin f ∧
      (f ∉ s.replacer.list_t → (NewPgImp s d).2.1.replacer = s.replacer)) ∧
    (s.free_list = f :: rest → mapCount s.page_table p = 0 →
      (FetchPgImp s d p).1 = some f ∧
      (FetchPgImp s d p).2.1.free_list = rest ∧
      (FetchPgImp s d p).2.1.replacer = s.replacer.Pin f ∧
      (f ∉ s.replacer.list_t → (FetchPgImp s d p).2.1.replacer = s.replacer)) := by
  refine ⟨?_, ?_, ?_, ?_⟩
  · by_cases hg : s.free_list = [] ∧ s.replacer.S = 0 <;> simp [NewPgImp, hg]
  · intro h
    by_cases hg : s.free_list = [] ∧ s.replacer.S = 0 <;> simp [FetchPgImp, hg, h]
  · intro h
    rw [NewPgImp_free s d f rest h]
    exact ⟨rfl, rfl, rfl, fun hf => Pin_of_not_mem s.replacer f hf⟩
  · intro h hm
    rw [FetchPgImp_miss_free s d p f rest (by simp [hm]) h]
    exact ⟨rfl, rfl, rfl, fun hf => Pin_of_not_mem s.replacer f hf⟩

/-- C5 witness: a fresh two-frame pool pops frame 0 from the free list for
both `NewPgImp` and a miss `FetchPgImp`, leaving the (empty) replacer
untouched. -/
theorem C5_exhaustion_and_free_priority_witness :
    (NewPgImp (mkBPM 2 1 0) emptyDisk).1 = some ((mkBPM 2 1 0).next_page_id, 0) ∧
    (FetchPgImp (mkBPM 2 1 0) emptyDisk 3).1 = some 0 ∧
    (NewPgImp (mkBPM 2 1 0) emptyDisk).2.1.replacer = (mkBPM 2 1 0).replacer :=
  ⟨((C5_exhaustion_and_free_priority (mkBPM 2 1 0) emptyDisk 3 0 [1]).2.2.1 rfl).1,
   ((C5_exhaustion_and_free_priority (mkBPM 2 1 0) emptyDisk 3 0 [1]).2.2.2 rfl
      (by decide)).1,
   ((C5_exhaustion_and_free_priority (mkBPM 2 1 0) emptyDisk 3 0 [1]).2.2.1 rfl).2.2.2
      (by decide)⟩

/-- C4 counterexample: on the one-frame pool `c4S`, fetching page 7 whose
disk read fails (`c4D.ReadPage 7 = none`) still installs 7 in the page table,
keeps the chosen frame out of the free list and the replacer, and returns the
frame as a normal success — the claimed rollback and propagation do not
happen. -/
theorem C4_counterexample :
    c4D.ReadPage 7 = none ∧
    (FetchPgImp c4S c4D 7).1 = some 0 ∧
    mapCount (FetchPgImp c4S c4D 7).2.1.page_table 7 = 1 ∧
    (FetchPgImp c4S c4D 7).2.1.free_list = [] ∧
    (FetchPgImp c4S c4D 7).2.1.replacer.list_t = [] := by decide

/-- C4 as amended: `FetchPgImp` never inspects `ReadPage`'s outcome.  On a
miss served from the free list, even when the read fails, the page id is
inserted into the page table, the frame is assigned to it with `pin_count =
1` and its buffer left holding its previous bytes, the frame is not returned
to the free list, and the call returns the frame as a normal success; the
disk is untouched. -/
theorem C4_read_failure_not_handled (s : BPM) (d : Disk) (p : Int)
    (f : Nat) (rest : List Nat)
    (hmiss : mapCount s.page_table p = 0)
    (hfree : s.free_list = f :: rest)
    (hlen : f < s.pages.length)
    (hfail : d.ReadPage p = none) :
    (FetchPgImp s d p).1 = some f ∧
    mapCount (FetchPgImp s d p).2.1.page_table p = 1 ∧
    (FetchPgImp s d p).2.1.free_list = rest ∧
    (FetchPgImp s d p).2.1.pages.getD f default =
      { page_id := p, data := (s.pages.getD f default).data,
        pin_count := 1, is_dirty := false } ∧
    (FetchPgImp s d p).2.2 = d := by
  rw [FetchPgImp_miss_free s d p f rest (by simp [hmiss]) hfree]
  refine ⟨rfl, ?_, rfl, ?_, rfl⟩
  · exact mapCount_insert_self s.page_table p f hmiss
  · rw [getD_set_self _ _ _ hlen, hfail]
    rfl

/-- C3: whenever `NewPgImp` or `FetchPgImp` takes its victim frame from the
replacer (free list empty, replacer front `f`) and that frame is dirty, the
frame's current contents are written to disk via the disk manager (they are
both appended to the write log and persisted in the store) before the frame
is reassigned (the persisted bytes are the pre-assignment ones), the frame's
dirty flag ends up cleared, and the victim's old page-id mapping is gone
from the page table.  The consistency hypotheses (`hcount`, `hat`) say the
victim's old id maps to the victim frame, `hne` / `hpne` that the incoming
page id differs from the old one — both automatic in reachable states. -/
theorem C3_dirty_victim_written_back (s : BPM) (d : Disk) (p : Int)
    (f : Nat) (rest : List Nat)
    (hfree : s.free_list = [])
    (hrep : s.replacer.list_t = f :: rest)
    (hlen : f < s.pages.length)
    (hdirty : (s.pages.getD f default).is_dirty = true)
    (hcount : mapCount s.page_table (s.pages.getD f default).page_id ≠ 0)
    (hat : mapAt s.page_table (s.pages.getD f default).page_id = f)
    (hne : s.next_page_id ≠ (s.pages.getD f default).page_id)
    (hmiss : mapCount s.page_table p = 0)
    (hpne : p ≠ (s.pages.getD f default).page_id) :
    ((NewPgImp s d).1 = some (s.next_page_id, f) ∧
     (NewPgImp s d).2.2.log =
       d.log ++ [((s.pages.getD f default).page_id, (s.pages.getD f default).data)] ∧
     (NewPgImp s d).2.2.store.lookup (s.pages.getD f default).page_id =
       some (s.pages.getD f default).data ∧
     mapCount (NewPgImp s d).2.1.page_table (s.pages.getD f default).page_id = 0 ∧
     ((NewPgImp s d).2.1.pages.getD f default).is_dirty = false) ∧
    ((FetchPgImp s d p).1 = some f ∧
     (FetchPgImp s d p).2.2.log =
       d.log ++ [((s.pages.getD f default).page_id, (s.pages.getD f default).data)] ∧
     (FetchPgImp s d p).2.2.store.lookup (s.pages.getD f default).page_id =
       some (s.pages.getD f default).data ∧
     mapCount (FetchPgImp s d p).2.1.page_table (s.pages.getD f default).page_id = 0 ∧
     ((FetchPgImp s d p).2.1.pages.getD f default).is_dirty = false) := by
  constructor
  · rw [NewPgImp_victim_dirty s d f rest hfree hrep hdirty hcount hat]
    refine ⟨rfl, rfl, ?_, ?_, ?_⟩
    · simp [Disk.WritePage, List.lookup]
    · rw [mapCount_insert_of_ne _ _ _ _ (Ne.symm hne)]
      exact mapCount_erase_self s.page_table (s.pages.getD f default).page_id
    · rw [getD_set_self _ _ _ (by simpa using hlen)]
  · rw [FetchPgImp_victim_dirty s d p f rest (by simp [hmiss]) hfree hrep hdirty hcount hat]
    refine ⟨rfl, rfl, ?_, ?_, ?_⟩
    · simp [Disk.WritePage, List.lookup]
    · rw [mapCount_insert_of_ne _ _ _ _ (Ne.symm hpne)]
      exact mapCount_erase_self s.page_table (s.pages.getD f default).page_id
    · rw [getD_set_self _ _ _ (by simpa using hlen)]

/-- A one-frame pool whose frame 0 holds the dirty page 5 (bytes `9`),
unpinned, the replacer holding frame 0 and the free list empty: the next
`NewPgImp` or miss `FetchPgImp` must victimize and write back frame 0. -/
def wC3S : BPM :=
  { pool_size := 1, num_instances := 1, instance_index := 0, next_page_id := 6,
    pages := [{ page_id := 5, data := 9, pin_count := 0, is_dirty := true }],
    page_table := [(5, 0)], free_list := [],
    replacer := { size := 1, list_t := [0] } }

/-- C3 witness: on `wC3S`, `NewPgImp` writes `(5, 9)` to disk, removes the
mapping of page 5 and leaves frame 0 clean; `FetchPgImp 7` behaves alike. -/
theorem C3_dirty_victim_written_back_witness :
    (NewPgImp wC3S emptyDisk).2.2.log = emptyDisk.log ++ [(5, 9)] ∧
    mapCount (NewPgImp wC3S emptyDisk).2.1.page_table 5 = 0 ∧
    ((NewPgImp wC3S emptyDisk).2.1.pages.getD 0 default).is_dirty = false ∧
    (FetchPgImp wC3S emptyDisk 7).1 = some 0 ∧
    (FetchPgImp wC3S emptyDisk 7).2.2.store.lookup 5 = some 9 :=
  ⟨(C3_dirty_victim_written_back wC3S emptyDisk 7 0 [] rfl rfl (by decide) (by decide)
      (by decide) (by decide) (by decide) (by decide) (by decide)).1.2.1,
   (C3_dirty_victim_written_back wC3S emptyDisk 7 0 [] rfl rfl (by decide) (by decide)
      (by decide) (by decide) (by decide) (by decide) (by decide)).1.2.2.2.1,
   (C3_dirty_victim_written_back wC3S emptyDisk 7 0 [] rfl rfl (by decide) (by decide)
      (by decide) (by decide) (by decide) (by decide) (by decide)).1.2.2.2.2,
   (C3_dirty_victim_written_back wC3S emptyDisk 7 0 [] rfl rfl (by decide) (by decide)
      (by decide) (by decide) (by decide) (by decide) (by decide)).2.1,
   (C3_dirty_victim_written_back wC3S emptyDisk 7 0 [] rfl rfl (by decide) (by decide)
      (by decide) (by decide) (by decide) (by decide) (by decide)).2.2.2.1⟩

/-- C4 amended-claim witness: the theorem applied to `c4S` and the failing
disk `c4D`. -/
theorem C4_read_failure_not_handled_witness :
    (FetchPgImp c4S c4D 7).2.1.free_list = [] ∧
    (FetchPgImp c4S c4D 7).2.1.pages.getD 0 default =
      { page_id := 7, data := (c4S.pages.getD 0 default).data,
        pin_count := 1, is_dirty := false } ∧
    (FetchPgImp c4S c4D 7).2.2 = c4D :=
  ⟨(C4_read_failure_not_handled c4S c4D 7 0 [] (by decide) rfl (by decide) (by decide)).2.2.1,
   (C4_read_failure_not_handled c4S c4D 7 0 [] (by decide) rfl (by decide) (by decide)).2.2.2.1,
   (C4_read_failure_not_handled c4S c4D 7 0 [] (by decide) rfl (by decide) (by decide)).2.2.2.2⟩

section DirtyStickiness

/-- `FlushPgImp` either leaves the frames and the disk untouched, or cleans
exactly one dirty in-range frame while writing that frame's bytes under the
flushed page id; every non-`pages` field of the state is unchanged. -/
theorem FlushPgImp_cases (s : BPM) (d : Disk) (p : Int) :
    ((FlushPgImp s d p).2.1 = { s with pages := (FlushPgImp s d p).2.1.pages }) ∧
    (((FlushPgImp s d p).2.1.pages = s.pages ∧ (FlushPgImp s d p).2.2 = d) ∨
     (∃ fr, fr < s.pages.length ∧ (s.pages.getD fr default).is_dirty = true ∧
       (FlushPgImp s d p).2.1.pages =
         s.pages.set fr { s.pages.getD fr default with is_dirty := false } ∧
       (FlushPgImp s d p).2.2 = d.WritePage p (s.pages.getD fr default).data)) := by
  by_cases h0 : mapCount s.page_table p = 0
  · have he : FlushPgImp s d p = (false, s, d) := by
      unfold FlushPgImp
      rw [if_pos h0]
    rw [he]
    exact ⟨rfl, Or.inl ⟨rfl, rfl⟩⟩
  · by_cases hd : (s.pages.getD (mapAt s.page_table p) default).is_dirty = false
    · have he : FlushPgImp s d p = (true, s, d) := by
        unfold FlushPgImp
        rw [if_neg h0, if_pos hd]
      rw [he]
      exact ⟨rfl, Or.inl ⟨rfl, rfl⟩⟩
    · have hd' : (s.pages.getD (mapAt s.page_table p) default).is_dirty = true := by
        cases hx : (s.pages.getD (mapAt s.page_table p) default).is_dirty
        · exact absurd hx hd
        · rfl
      have he : FlushPgImp s d p =
          (true,
           { s with pages := s.pages.set (mapAt s.page_table p) { s.pages.getD (mapAt s.page_table p) default with is_dirty := false } },
           d.WritePage p (s.pages.getD (mapAt s.page_table p) default).data) := by
        unfold FlushPgImp
        rw [if_neg h0, if_neg hd]
      rw [he]
      refine ⟨rfl, Or.inr ⟨mapAt s.page_table p, ?_, hd', rfl, rfl⟩⟩
      by_contra hb
      rw [List.getD_eq_default _ _ (by omega)] at hd'
      exact absurd hd' (by decide)

/-- `UnpinPgImp` on a resident page whose frame is pinned: returns true and
only rewrites that frame, decrementing the pin count and or-ing the dirty
flag with the caller's `is_dirty` argument. -/
theorem UnpinPgImp_resident (s : BPM) (p : Int) (b : Bool)
    (hc : mapCount s.page_table p ≠ 0)
    (hpin : (s.pages.getD (mapAt s.page_table p) default).pin_count ≠ 0) :
    (UnpinPgImp s p b).1 = true ∧
    (UnpinPgImp s p b).2.pages =
      s.pages.set (mapAt s.page_table p)
        { page_id := (s.pages.getD (mapAt s.page_table p) default).page_id,
          data := (s.pages.getD (mapAt s.page_table p) default).data,
          pin_count := (s.pages.getD (mapAt s.page_table p) default).pin_count - 1,
          is_dirty := b || (s.pages.getD (mapAt s.page_table p) default).is_dirty } := by
  have pages_ite : ∀ (c : Prop) [Decidable c] (x : BPM) (r : LRUReplacer),
      (if c then { x with replacer := r } else x).pages = x.pages := by
    intro c hc x r
    split <;> rfl
  unfold UnpinPgImp
  rw [if_neg hc, if_neg hpin]
  refine ⟨rfl, ?_⟩
  cases b
  · exact (pages_ite _ _ _).trans rfl
  · exact (pages_ite _ _ _).trans rfl

theorem obtainFrame_nil_clean (s : BPM) (d : Disk)
    (hfl : s.free_list = [])
    (hcl : (s.pages.getD ((s.replacer.Victim).1.getD 0) default).is_dirty = false) :
    obtainFrame s d =
      ((s.replacer.Victim).1.getD 0,
       { s with replacer := (s.replacer.Victim).2,
                page_table := mapErase s.page_table (s.pages.getD ((s.replacer.Victim).1.getD 0) default).page_id },
       d) := by
  unfold obtainFrame
  rw [hfl]
  dsimp only
  rw [if_neg (by simpa [List.getD_eq_getElem?_getD] using hcl)]

theorem obtainFrame_nil_dirty (s : BPM) (d : Disk)
    (hfl : s.free_list = [])
    (hdy : (s.pages.getD ((s.replacer.Victim).1.getD 0) default).is_dirty = true) :
    obtainFrame s d =
      ((s.replacer.Victim).1.getD 0,
       { (FlushPgImp { s with replacer := (s.replacer.Victim).2 } d (s.pages.getD ((s.replacer.Victim).1.getD 0) default).page_id).2.1 with page_table := mapErase (FlushPgImp { s with replacer := (s.replacer.Victim).2 } d (s.pages.getD ((s.replacer.Victim).1.getD 0) default).page_id).2.1.page_table (s.pages.getD ((s.replacer.Victim).1.getD 0) default).page_id },
       (FlushPgImp { s with replacer := (s.replacer.Victim).2 } d (s.pages.getD ((s.replacer.Victim).1.getD 0) default).page_id).2.2) := by
  unfold obtainFrame
  rw [hfl]
  dsimp only
  rw [if_pos (by simpa [List.getD_eq_getElem?_getD] using hdy)]

/-- `obtainFrame` preserves the allocator cursor and the instance count, and
either leaves the frames and the disk untouched, or cleans exactly one dirty
in-range frame while writing that frame's bytes to disk (the dirty-victim
write-back). -/
theorem obtainFrame_spec (s : BPM) (d : Disk) :
    (obtainFrame s d).2.1.next_page_id = s.next_page_id ∧
    (obtainFrame s d).2.1.num_instances = s.num_instances ∧
    (((obtainFrame s d).2.1.pages = s.pages ∧ (obtainFrame s d).2.2 = d) ∨
     (∃ fr q, fr < s.pages.length ∧ (s.pages.getD fr default).is_dirty = true ∧
       (obtainFrame s d).2.1.pages =
         s.pages.set fr { s.pages.getD fr default with is_dirty := false } ∧
       (obtainFrame s d).2.2 = d.WritePage q (s.pages.getD fr default).data)) := by
  cases hfl : s.free_list with
  | cons g rest =>
    rw [obtainFrame_free s d g rest hfl]
    exact ⟨rfl, rfl, Or.inl ⟨rfl, rfl⟩⟩
  | nil =>
    by_cases hdy : (s.pages.getD ((s.replacer.Victim).1.getD 0) default).is_dirty = true
    · rw [obtainFrame_nil_dirty s d hfl hdy]
      obtain ⟨hfields, hcases⟩ := FlushPgImp_cases { s with replacer := (s.replacer.Victim).2 }
        d (s.pages.getD ((s.replacer.Victim).1.getD 0) default).page_id
      refine ⟨?_, ?_, ?_⟩
      · rw [hfields]
      · rw [hfields]
      · rcases hcases with ⟨hp, hd2⟩ | ⟨fr, hlt, hdf, hp, hd2⟩
        · exact Or.inl ⟨hp, hd2⟩
        · exact Or.inr ⟨fr, (s.pages.getD ((s.replacer.Victim).1.getD 0) default).page_id,
            hlt, hdf, hp, hd2⟩
    · have hcl : (s.pages.getD ((s.replacer.Victim).1.getD 0) default).is_dirty = false := by
        cases hx : (s.pages.getD ((s.replacer.Victim).1.getD 0) default).is_dirty
        · rfl
        · exact absurd hx hdy
      rw [obtainFrame_nil_clean s d hfl hcl]
      exact ⟨rfl, rfl, Or.inl ⟨rfl, rfl⟩⟩

theorem NewPgImp_not_full (s : BPM) (d : Disk)
    (hg : ¬(s.free_list = [] ∧ s.replacer.S = 0)) :
    NewPgImp s d =
      (some ((obtainFrame s d).2.1.next_page_id, (obtainFrame s d).1),
       { (obtainFrame s d).2.1 with
           next_page_id := (obtainFrame s d).2.1.next_page_id + ((obtainFrame s d).2.1.num_instances : Int),
           pages := (obtainFrame s d).2.1.pages.set (obtainFrame s d).1 { page_id := (obtainFrame s d).2.1.next_page_id, data := 0, pin_count := 1, is_dirty := false },
           page_table := mapInsert (obtainFrame s d).2.1.page_table (obtainFrame s d).2.1.next_page_id (obtainFrame s d).1,
           replacer := ((obtainFrame s d).2.1.replacer).Pin (obtainFrame s d).1 },
       (obtainFrame s d).2.2) := by
  unfold NewPgImp
  rw [if_neg hg]
  rfl

theorem FetchPgImp_miss_general (s : BPM) (d : Disk) (p : Int)
    (hmiss : mapCount s.page_table p ≠ 1)
    (hg : ¬(s.free_list = [] ∧ s.replacer.S = 0)) :
    FetchPgImp s d p =
      (some (obtainFrame s d).1,
       { (obtainFrame s d).2.1 with
           pages := (obtainFrame s d).2.1.pages.set (obtainFrame s d).1 { page_id := p, data := ((obtainFrame s d).2.2.ReadPage p).getD (((obtainFrame s d).2.1.pages.getD (obtainFrame s d).1 default).data), pin_count := 1, is_dirty := false },
           page_table := mapInsert (obtainFrame s d).2.1.page_table p (obtainFrame s d).1,
           replacer := ((obtainFrame s d).2.1.replacer).Pin (obtainFrame s d).1 },
       (obtainFrame s d).2.2) := by
  unfold FetchPgImp
  rw [if_neg hmiss, if_neg hg]

theorem FetchPgImp_hit (s : BPM) (d : Disk) (p : Int)
    (hhit : mapCount s.page_table p = 1) :
    FetchPgImp s d p =
      (some (mapAt s.page_table p),
       { s with
           pages := s.pages.set (mapAt s.page_table p) { s.pages.getD (mapAt s.page_table p) default with pin_count := (s.pages.getD (mapAt s.page_table p) default).pin_count + 1 },
           replacer := s.replacer.Pin (mapAt s.page_table p) },
       d) := by
  unfold FetchPgImp
  rw [if_pos hhit]

/-- `UnpinPgImp` never clears a dirty flag. -/
theorem UnpinPgImp_dirty_mono (s : BPM) (p : Int) (b : Bool) (f : Nat)
    (h1 : dirtyF s f = true) : dirtyF (UnpinPgImp s p b).2 f = true := by
  by_cases hc : mapCount s.page_table p = 0
  · have he : UnpinPgImp s p b = (false, s) := by
      unfold UnpinPgImp
      rw [if_pos hc]
    rw [he]
    exact h1
  · by_cases hz : (s.pages.getD (mapAt s.page_table p) default).pin_count = 0
    · have he : UnpinPgImp s p b = (true, s) := by
        unfold UnpinPgImp
        rw [if_neg hc, if_pos hz]
      rw [he]
      exact h1
    · obtain ⟨-, hpages⟩ := UnpinPgImp_resident s p b hc hz
      unfold dirtyF at h1 ⊢
      rw [hpages]
      by_cases hb : mapAt s.page_table p < s.pages.length
      · by_cases hffr : mapAt s.page_table p = f
        · rw [hffr] at hb ⊢
          rw [getD_set_self _ _ _ hb]
          have h1' : (s.pages[f]?.getD default).is_dirty = true := by
            rw [← List.getD_eq_getElem?_getD]
            exact h1
          simp [h1']
        · rw [getD_set_ne _ _ _ _ hffr]
          exact h1
      · rw [List.set_eq_of_length_le (by omega)]
        exact h1

/-- `FlushPgImp` clears a dirty flag only by writing that frame's bytes to
disk under the flushed page id. -/
theorem FlushPgImp_dirty_sticky (s : BPM) (d : Disk) (p : Int) (f : Nat)
    (h1 : dirtyF s f = true) (h2 : dirtyF (FlushPgImp s d p).2.1 f = false) :
    (FlushPgImp s d p).2.2.log = d.log ++ [(p, (s.pages.getD f default).data)] := by
  obtain ⟨-, hcases⟩ := FlushPgImp_cases s d p
  unfold dirtyF at h1 h2
  rcases hcases with ⟨hp, hd2⟩ | ⟨fr, hlt, hdf, hp, hd2⟩
  · rw [hp] at h2
    exact absurd (h1.symm.trans h2) (by decide)
  · by_cases hffr : fr = f
    · rw [hffr] at hd2
      rw [hd2]
      rfl
    · rw [hp, getD_set_ne _ _ _ _ hffr] at h2
      exact absurd (h1.symm.trans h2) (by decide)

/-- The `flushStep` fold of `FlushAllPgsImp` preserves every frame's data,
only appends to the write log, and cleans a dirty frame only after appending
that frame's bytes to the log. -/
theorem flushFold_spec (l : List (Int × Nat)) (a : BPM × Disk) (f : Nat) :
    ((l.foldl flushStep a).1.pages.getD f default).data = (a.1.pages.getD f default).data ∧
    ∃ t, (l.foldl flushStep a).2.log = a.2.log ++ t ∧
      ((a.1.pages.getD f default).is_dirty = true →
       ((l.foldl flushStep a).1.pages.getD f default).is_dirty = false →
       ∃ q, (q, (a.1.pages.getD f default).data) ∈ t) := by
  induction l generalizing a with
  | nil =>
    refine ⟨rfl, [], by simp, ?_⟩
    intro h1 h2
    rw [List.foldl_nil] at h2
    exact absurd (h1.symm.trans h2) (by decide)
  | cons v l ih =>
    rw [List.foldl_cons]
    by_cases hd : (a.1.pages.getD v.2 default).is_dirty = false
    · have ha : flushStep a v = a := by
        unfold flushStep
        rw [if_pos hd]
      rw [ha]
      exact ih a
    · have ha : flushStep a v =
          ({ a.1 with pages := a.1.pages.set v.2 { a.1.pages.getD v.2 default with is_dirty := false } },
           a.2.WritePage v.1 (a.1.pages.getD v.2 default).data) := by
        unfold flushStep
        rw [if_neg hd]
      rw [ha]
      obtain ⟨ihdata, t, ihlog, ihdirty⟩ := ih
        ({ a.1 with pages := a.1.pages.set v.2 { a.1.pages.getD v.2 default with is_dirty := false } },
         a.2.WritePage v.1 (a.1.pages.getD v.2 default).data)
      by_cases hvf : v.2 = f ∧ v.2 < a.1.pages.length
      · obtain ⟨hveq, hvb⟩ := hvf
        have hgd : (a.1.pages.set v.2 { a.1.pages.getD v.2 default with is_dirty := false }).getD f default = { a.1.pages.getD v.2 default with is_dirty := false } := by
          rw [← hveq]
          exact getD_set_self _ _ _ hvb
        refine ⟨?_, (v.1, (a.1.pages.getD v.2 default).data) :: t, ?_, ?_⟩
        · rw [ihdata, hgd, hveq]
        · rw [ihlog]
          show (a.2.log ++ [(v.1, (a.1.pages.getD v.2 default).data)]) ++ t = _
          simp
        · intro h1 h2
          rw [hveq]
          exact ⟨v.1, by simp⟩
      · have hgd : (a.1.pages.set v.2 { a.1.pages.getD v.2 default with is_dirty := false }).getD f default = a.1.pages.getD f default := by
          rcases not_and_or.mp hvf with h | h
          · exact getD_set_ne _ _ _ _ h
          · rw [List.set_eq_of_length_le (by omega)]
        refine ⟨?_, (v.1, (a.1.pages.getD v.2 default).data) :: t, ?_, ?_⟩
        · rw [ihdata, hgd]
        · rw [ihlog]
          show (a.2.log ++ [(v.1, (a.1.pages.getD v.2 default).data)]) ++ t = _
          simp
        · intro h1 h2
          obtain ⟨q, hq⟩ := ihdirty (by rw [hgd]; exact h1) h2
          rw [hgd] at hq
          exact ⟨q, List.mem_cons_of_mem _ hq⟩

/-- `NewPgImp` clears a dirty flag only by flushing that frame's bytes or by
reassigning that very frame to the freshly allocated page. -/
theorem NewPgImp_dirty_sticky (s : BPM) (d : Disk) (f : Nat)
    (h1 : dirtyF s f = true) (h2 : dirtyF (NewPgImp s d).2.1 f = false) :
    (∃ q, (NewPgImp s d).2.2.log = d.log ++ [(q, (s.pages.getD f default).data)]) ∨
    (∃ pid, (NewPgImp s d).1 = some (pid, f)) := by
  by_cases hg : s.free_list = [] ∧ s.replacer.S = 0
  · exfalso
    have he : NewPgImp s d = (none, s, d) := by
      unfold NewPgImp
      rw [if_pos hg]
    rw [he] at h2
    exact absurd (h1.symm.trans h2) (by decide)
  · rw [NewPgImp_not_full s d hg] at h2 ⊢
    obtain ⟨-, -, hcases⟩ := obtainFrame_spec s d
    by_cases hf : (obtainFrame s d).1 = f
    · right
      exact ⟨(obtainFrame s d).2.1.next_page_id, by rw [hf]⟩
    · have h2' : (((obtainFrame s d).2.1.pages.set (obtainFrame s d).1 { page_id := (obtainFrame s d).2.1.next_page_id, data := 0, pin_count := 1, is_dirty := false }).getD f default).is_dirty = false := h2
      rw [getD_set_ne _ _ _ _ hf] at h2'
      unfold dirtyF at h1
      rcases hcases with ⟨hp, hd2⟩ | ⟨fr, q, hlt, hdf, hp, hd2⟩
      · rw [hp] at h2'
        exact absurd (h1.symm.trans h2') (by decide)
      · rw [hp] at h2'
        by_cases hffr : fr = f
        · left
          refine ⟨q, ?_⟩
          rw [hd2, hffr]
          rfl
        · rw [getD_set_ne _ _ _ _ hffr] at h2'
          exact absurd (h1.symm.trans h2') (by decide)

/-- `FetchPgImp` clears a dirty flag only by flushing that frame's bytes or
by assigning the fetched page to that very frame (the returned frame). -/
theorem FetchPgImp_dirty_sticky (s : BPM) (d : Disk) (p : Int) (f : Nat)
    (h1 : dirtyF s f = true) (h2 : dirtyF (FetchPgImp s d p).2.1 f = false) :
    (∃ q, (FetchPgImp s d p).2.2.log = d.log ++ [(q, (s.pages.getD f default).data)]) ∨
    (FetchPgImp s d p).1 = some f := by
  by_cases hhit : mapCount s.page_table p = 1
  · exfalso
    rw [FetchPgImp_hit s d p hhit] at h2
    have h2' : ((s.pages.set (mapAt s.page_table p) { s.pages.getD (mapAt s.page_table p) default with pin_count := (s.pages.getD (mapAt s.page_table p) default).pin_count + 1 }).getD f default).is_dirty = false := h2
    unfold dirtyF at h1
    by_cases hb : mapAt s.page_table p < s.pages.length
    · by_cases hffr : mapAt s.page_table p = f
      · rw [hffr] at hb h2'
        rw [← hffr, getD_set_self _ _ _ (hffr ▸ hb)] at h2'
        rw [hffr] at h2'
        exact absurd (h1.symm.trans h2') (by decide)
      · rw [getD_set_ne _ _ _ _ hffr] at h2'
        exact absurd (h1.symm.trans h2') (by decide)
    · rw [List.set_eq_of_length_le (by omega)] at h2'
      exact absurd (h1.symm.trans h2') (by decide)
  · by_cases hg : s.free_list = [] ∧ s.replacer.S = 0
    · exfalso
      have he : FetchPgImp s d p = (none, s, d) := by
        unfold FetchPgImp
        rw [if_neg hhit, if_pos hg]
      rw [he] at h2
      exact absurd (h1.symm.trans h2) (by decide)
    · rw [FetchPgImp_miss_general s d p hhit hg] at h2 ⊢
      obtain ⟨-, -, hcases⟩ := obtainFrame_spec s d
      by_cases hf : (obtainFrame s d).1 = f
      · right
        rw [hf]
      · have h2' : (((obtainFrame s d).2.1.pages.set (obtainFrame s d).1 { page_id := p, data := ((obtainFrame s d).2.2.ReadPage p).getD (((obtainFrame s d).2.1.pages.getD (obtainFrame s d).1 default).data), pin_count := 1, is_dirty := false }).getD f default).is_dirty = false := h2
        rw [getD_set_ne _ _ _ _ hf] at h2'
        unfold dirtyF at h1
        rcases hcases with ⟨hp, hd2⟩ | ⟨fr, q, hlt, hdf, hp, hd2⟩
        · rw [hp] at h2'
          exact absurd (h1.symm.trans h2') (by decide)
        · rw [hp] at h2'
          by_cases hffr : fr = f
          · left
            refine ⟨q, ?_⟩
            rw [hd2, hffr]
            rfl
          · rw [getD_set_ne _ _ _ _ hffr] at h2'
            exact absurd (h1.symm.trans h2') (by decide)

/-- `DeletePgImp` clears a dirty flag only on the very frame it resets, and
then it reports success. -/
theorem DeletePgImp_dirty_sticky (s : BPM) (p : Int) (f : Nat)
    (h1 : dirtyF s f = true) (h2 : dirtyF (DeletePgImp s p).2 f = false) :
    f = mapAt s.page_table p ∧ (DeletePgImp s p).1 = true := by
  by_cases hc : mapCount s.page_table p = 0
  · exfalso
    have he : DeletePgImp s p = (true, s) := by
      unfold DeletePgImp
      rw [if_pos hc]
    rw [he] at h2
    exact absurd (h1.symm.trans h2) (by decide)
  · by_cases hpin : (s.pages.getD (mapAt s.page_table p) default).pin_count ≠ 0
    · exfalso
      have he : DeletePgImp s p = (false, s) := by
        unfold DeletePgImp
        rw [if_neg hc, if_pos hpin]
      rw [he] at h2
      exact absurd (h1.symm.trans h2) (by decide)
    · have he : DeletePgImp s p =
          (true,
           { s with pages := s.pages.set (mapAt s.page_table p) { page_id := INVALID_PAGE_ID, data := 0, is_dirty := false, pin_count := 0 },
                    page_table := mapErase s.page_table INVALID_PAGE_ID,
                    free_list := s.free_list ++ [mapAt s.page_table p],
                    replacer := s.replacer.Pin (mapAt s.page_table p) }) := by
        unfold DeletePgImp
        rw [if_neg hc, if_neg hpin]
      rw [he] at h2
      unfold dirtyF at h1 h2
      refine ⟨?_, by rw [he]⟩
      by_cases hffr : mapAt s.page_table p = f
      · exact hffr.symm
      · exfalso
        by_cases hb : mapAt s.page_table p < s.pages.length
        · rw [getD_set_ne _ _ _ _ hffr] at h2
          exact absurd (h1.symm.trans h2) (by decide)
        · rw [List.set_eq_of_length_le (by omega)] at h2
          exact absurd (h1.symm.trans h2) (by decide)

end DirtyStickiness

/-- C7: dirty-flag semantics.  For a resident page `p` whose frame is pinned,
`UnpinPgImp p true` reports success and sets the frame's dirty flag, while
`UnpinPgImp p false` leaves the flag exactly as it was (a false argument
never clears it).  Moreover dirtiness is sticky across every operation: an
unpin never clears any dirty flag, and whenever `FlushPgImp`,
`FlushAllPgsImp`, `NewPgImp`, `FetchPgImp` or `DeletePgImp` turns some
frame's dirty flag off, either that frame's bytes were written to the disk
manager during the call (flush; the dirty victim of a new/fetch), or that
very frame is the one the call reset or reassigned to a different page (the
frame returned by new/fetch, the frame deleted by a successful delete). -/
theorem C7_dirty_flag_semantics (s : BPM) (d : Disk) (p : Int) (b : Bool) (f : Nat) :
    (mapCount s.page_table p ≠ 0 →
     mapAt s.page_table p < s.pages.length →
     (s.pages.getD (mapAt s.page_table p) default).pin_count ≠ 0 →
       (UnpinPgImp s p true).1 = true ∧
       ((UnpinPgImp s p true).2.pages.getD (mapAt s.page_table p) default).is_dirty = true ∧
       ((UnpinPgImp s p false).2.pages.getD (mapAt s.page_table p) default).is_dirty =
         (s.pages.getD (mapAt s.page_table p) default).is_dirty) ∧
    (dirtyF s f = true → dirtyF (UnpinPgImp s p b).2 f = true) ∧
    (dirtyF s f = true → dirtyF (FlushPgImp s d p).2.1 f = false →
      (FlushPgImp s d p).2.2.log = d.log ++ [(p, (s.pages.getD f default).data)]) ∧
    (dirtyF s f = true → dirtyF (FlushAllPgsImp s d).1 f = false →
      ∃ t, (FlushAllPgsImp s d).2.log = d.log ++ t ∧
        ∃ q, (q, (s.pages.getD f default).data) ∈ t) ∧
    (dirtyF s f = true → dirtyF (NewPgImp s d).2.1 f = false →
      (∃ q, (NewPgImp s d).2.2.log = d.log ++ [(q, (s.pages.getD f default).data)]) ∨
      (∃ pid, (NewPgImp s d).1 = some (pid, f))) ∧
    (dirtyF s f = true → dirtyF (FetchPgImp s d p).2.1 f = false →
      (∃ q, (FetchPgImp s d p).2.2.log = d.log ++ [(q, (s.pages.getD f default).data)]) ∨
      (FetchPgImp s d p).1 = some f) ∧
    (dirtyF s f = true → dirtyF (DeletePgImp s p).2 f = false →
      f = mapAt s.page_table p ∧ (DeletePgImp s p).1 = true) := by
  refine ⟨?_, UnpinPgImp_dirty_mono s p b f, FlushPgImp_dirty_sticky s d p f,
    ?_, NewPgImp_dirty_sticky s d f, FetchPgImp_dirty_sticky s d p f,
    DeletePgImp_dirty_sticky s p f⟩
  · intro hc hfr hpin
    obtain ⟨ht1, hp1⟩ := UnpinPgImp_resident s p true hc hpin
    obtain ⟨-, hp0⟩ := UnpinPgImp_resident s p false hc hpin
    refine ⟨ht1, ?_, ?_⟩
    · rw [hp1, getD_set_self _ _ _ hfr]
      rfl
    · rw [hp0, getD_set_self _ _ _ hfr]
      rfl
  · intro h1 h2
    obtain ⟨-, t, hlog, hdirty⟩ := flushFold_spec s.page_table (s, d) f
    exact ⟨t, hlog, hdirty h1 h2⟩

/-- A one-frame pool whose only frame holds page 0, pinned once and dirty
(bytes `9`). -/
def wDirtyS : BPM :=
  { pool_size := 1, num_instances := 1, instance_index := 0, next_page_id := 1,
    pages := [{ page_id := 0, data := 9, pin_count := 1, is_dirty := true }],
    page_table := [(0, 0)], free_list := [],
    replacer := { size := 1, list_t := [] } }

/-- C7 witness: unpinning page 0 of `wDirtyS` keeps the dirty flag whatever
the argument; flushing it logs the write `(0, 9)`; on the dirty unpinned pool
`wC3S`, `NewPgImp` clears frame 0's dirty flag only per the stated
disjunction. -/
theorem C7_dirty_flag_semantics_witness :
    ((UnpinPgImp wDirtyS 0 true).2.pages.getD 0 default).is_dirty = true ∧
    dirtyF (UnpinPgImp wDirtyS 0 false).2 0 = true ∧
    (FlushPgImp wDirtyS emptyDisk 0).2.2.log = emptyDisk.log ++ [(0, 9)] ∧
    ((∃ q, (NewPgImp wC3S emptyDisk).2.2.log = emptyDisk.log ++ [(q, 9)]) ∨
     (∃ pid, (NewPgImp wC3S emptyDisk).1 = some (pid, 0))) :=
  ⟨((C7_dirty_flag_semantics wDirtyS emptyDisk 0 false 0).1 (by decide) (by decide)
      (by decide)).2.1,
   (C7_dirty_flag_semantics wDirtyS emptyDisk 0 false 0).2.1 (by decide),
   (C7_dirty_flag_semantics wDirtyS emptyDisk 0 false 0).2.2.1 (by decide) (by decide),
   (C7_dirty_flag_semantics wC3S emptyDisk 0 false 0).2.2.2.2.1 (by decide) (by decide)⟩

end BusTub
